import Mathlib

/-!
Shallow embedding of the expense-approval workflow engine of
`src/final.py` (models in `src/model.py`).

The database tables become Lean values: the user roster is a `List User`
(queries with `.first()` take the first match in list order), and the
approval records of a single expense are a `List Approval`.  The HTTP
layer, authentication and currency conversion are outside the embedded
core, exactly as the engine functions receive their inputs in the source.
Autoincrement ids and timestamps play no role in the embedded logic and
are omitted from `Approval`.
-/

namespace ExpenseFlow

/-- Expense status: the `status` enum column (`pending`/`approved`/`rejected`),
default `pending`. -/
inductive Status
  | pending
  | approved
  | rejected
  deriving DecidableEq, Repr

/-- The `action` enum column of an approval record (`approved`/`rejected`);
the record is pending while the column is NULL, modelled as `Option Action`
with `none` for NULL. -/
inductive Action
  | approved
  | rejected
  deriving DecidableEq, Repr

/-- A row of the `User` table, restricted to the columns the workflow engine
reads: primary key, company, role string, and the self-referential
`manager_id` (NULL when the user has no manager). -/
structure User where
  id : Nat
  companyId : Nat
  role : String
  managerId : Option Nat
  deriving DecidableEq, Repr

/-- A row of the `Expense` table, restricted to the columns the engine reads
or writes.  `employee` is the ORM relationship `expense.employee` (the
submitter). -/
structure Expense where
  id : Nat
  employee : User
  status : Status
  comments : Option String
  deriving DecidableEq, Repr

/-- A row of the `Approval` table: `expense_id`, `approver_id`, `step`
(default 1), nullable `action`, nullable `comments`. -/
structure Approval where
  expenseId : Nat
  approverId : Nat
  step : Nat
  action : Option Action
  comments : Option String
  deriving DecidableEq, Repr

/-- One step descriptor of a workflow config, the tagged dict
`{'type': ...}`.  `userStep` carries `step.get('user_id')`, which may be
absent (`none`).  Any other `'type'` string is `unknown`. -/
inductive Step
  | managerOfSubmitter
  | roleStep (role : String)
  | userStep (userId : Option Nat)
  | unknown
  deriving DecidableEq, Repr

/-- The optional `conditional` dict of a workflow config:
`{'threshold': percentage, 'specific': [user_ids]}`.  Either key may be
absent.  The threshold is a number compared against a float percentage in
the source; it is embedded as an exact rational. -/
structure Conditional where
  threshold : Option ℚ
  specific : Option (List Nat)
  deriving DecidableEq, Repr

/-- A workflow `config` JSON dict.  `type?` is `config.get('type')`
(callers that default it to `'sequential'` are embedded with `.getD`);
`steps` is `config.get('steps', [])`; `conditional` is
`config.get('conditional')`, with `none` for an absent or falsy value. -/
structure WorkflowConfig where
  type? : Option String
  steps : List Step
  conditional : Option Conditional
  deriving DecidableEq, Repr

/-- `determine_approver(employee, step, company)` of `src/final.py`
(lines 132-139): `manager_of_submitter` returns the submitter's manager,
`role` the first user of the company with the given role, `user` the user
with the given id (no company check), anything else `None`. -/
def determine_approver (db : List User) (employee : User) (step : Step)
    (companyId : Nat) : Option User :=
  match step with
  | .managerOfSubmitter =>
      match employee.managerId with
      | some mid => db.find? (fun u => u.id = mid)
      | none => none
  | .roleStep r =>
      (db.filter (fun u => u.role = r && u.companyId = companyId)).head?
  | .userStep uid? =>
      match uid? with
      | some uid => db.find? (fun u => u.id = uid)
      | none => none
  | .unknown => none

/-- The `parallel_conditional` arm of `create_initial_approvals`:
`for i, step in enumerate(steps, 1)` create a pending record for every
step whose approver resolves; unresolvable steps are skipped. -/
def parallelInitialApprovals (db : List User) (employee : User)
    (companyId : Nat) (expenseId : Nat) : List Step → Nat → List Approval
  | [], _ => []
  | s :: rest, i =>
      match determine_approver db employee s companyId with
      | some ap =>
          ⟨expenseId, ap.id, i, none, none⟩ ::
            parallelInitialApprovals db employee companyId expenseId rest (i + 1)
      | none => parallelInitialApprovals db employee companyId expenseId rest (i + 1)

/-- `create_initial_approvals(expense, workflow_config, employee, company)`
of `src/final.py` (lines 141-159).  Returns the created approval records
together with the expense status after the call (the function mutates
`expense.status` only in the sequential no-approver branch). -/
def create_initial_approvals (db : List User) (expense : Expense)
    (cfg : WorkflowConfig) (employee : User) (companyId : Nat) :
    List Approval × Status :=
  let expType := cfg.type?.getD "sequential"
  if expType = "sequential" then
    match cfg.steps with
    | [] => ([], expense.status)
    | first :: _ =>
        match determine_approver db employee first companyId with
        | some ap => ([⟨expense.id, ap.id, 1, none, none⟩], expense.status)
        | none => ([], Status.approved)
  else if expType = "parallel_conditional" then
    (parallelInitialApprovals db employee companyId expense.id cfg.steps 1,
      expense.status)
  else ([], expense.status)

/-- `sum(1 for a in approvals if a.action == 'approved')`. -/
def approvedCount (approvals : List Approval) : Nat :=
  (approvals.filter (fun a => a.action = some Action.approved)).length

/-- `threshold_met = cond.get('threshold') and (approved_count / total * 100
>= cond['threshold'])` of `evaluate_conditional`: an absent or zero
threshold is falsy in Python, short-circuiting the comparison. -/
def thresholdMet (approvals : List Approval) (cond : Conditional) : Bool :=
  match cond.threshold with
  | none => false
  | some t =>
      t ≠ 0 && ((approvedCount approvals : ℚ) / (approvals.length : ℚ) * 100 ≥ t)

/-- `specific_met = any(a.action == 'approved' and a.approver_id in
specific_ids for a in approvals)`, guarded by `'specific' in cond`. -/
def specificMet (approvals : List Approval) (cond : Conditional) : Bool :=
  match cond.specific with
  | none => false
  | some ids =>
      approvals.any (fun a => a.action = some Action.approved && a.approverId ∈ ids)

/-- `all_rejected = all(a.action == 'rejected' for a in approvals if
a.action is not None)`: records with a NULL action are skipped, so the
conjunction is vacuously true when nothing is decided. -/
def allRejected (approvals : List Approval) : Bool :=
  approvals.all (fun a =>
    match a.action with
    | none => true
    | some act => act = Action.rejected)

/-- `evaluate_conditional(expense_id, workflow_config)` of `src/final.py`
(lines 161-183), as a function of the expense's approval records and the
config's conditional.  Returns the status it writes to the expense, or
`none` when it leaves the expense untouched (no records, falsy
conditional, or no branch taken). -/
def evaluate_conditional (approvals : List Approval)
    (conditional : Option Conditional) : Option Status :=
  if approvals.isEmpty then none
  else
    match conditional with
    | none => none
    | some cond =>
        if thresholdMet approvals cond || specificMet approvals cond then
          some Status.approved
        else if allRejected approvals then
          some Status.rejected
        else none

/-- The expense together with its approval records: the slice of the
database that a decision endpoint reads and writes. -/
structure EngineState where
  expense : Expense
  approvals : List Approval
  deriving DecidableEq, Repr

/-- The two `evaluate_conditional(expense.id, config)` call sites: the
evaluator re-reads the records and writes the expense status when a branch
fires. -/
def applyEvaluation (st : EngineState) (conditional : Option Conditional) :
    EngineState :=
  match evaluate_conditional st.approvals conditional with
  | some s => ⟨{ st.expense with status := s }, st.approvals⟩
  | none => st

/-- `approve_expense(approval_id)` of `src/final.py` (lines 370-412), past
the authorization checks (404/403 are the caller's concern; a missing
record index returns `none`).  `i` indexes the acted-on record inside
`st.approvals`; `workflow` is the company's workflow row, if any. -/
def approve_expense (db : List User) (workflow : Option WorkflowConfig)
    (st : EngineState) (i : Nat) (comments : String) (companyId : Nat) :
    Option EngineState :=
  match st.approvals[i]? with
  | none => none
  | some a =>
      let a1 : Approval :=
        { a with action := some Action.approved, comments := some comments }
      let approvals1 := st.approvals.set i a1
      match workflow with
      | none => some ⟨{ st.expense with status := Status.approved }, approvals1⟩
      | some cfg =>
          let expType := cfg.type?.getD "sequential"
          if expType = "sequential" then
            if a.step < cfg.steps.length then
              match determine_approver db st.expense.employee
                  (cfg.steps.getD a.step Step.unknown) companyId with
              | some nxt =>
                  some ⟨st.expense,
                    approvals1 ++ [⟨st.expense.id, nxt.id, a.step + 1, none, none⟩]⟩
              | none => some ⟨st.expense, approvals1⟩
            else some ⟨{ st.expense with status := Status.approved }, approvals1⟩
          else if expType = "parallel_conditional" then
            some (applyEvaluation ⟨st.expense, approvals1⟩ cfg.conditional)
          else some ⟨st.expense, approvals1⟩

/-- `reject_expense(approval_id)` of `src/final.py` (lines 414-433), past
the authorization checks.  Note the source tests
`workflow.config.get('type') == 'parallel_conditional'` with no default
here. -/
def reject_expense (workflow : Option WorkflowConfig) (st : EngineState)
    (i : Nat) (comments : String) : Option EngineState :=
  match st.approvals[i]? with
  | none => none
  | some a =>
      let a1 : Approval :=
        { a with action := some Action.rejected, comments := some comments }
      let approvals1 := st.approvals.set i a1
      match workflow with
      | some cfg =>
          if cfg.type? = some "parallel_conditional" then
            some (applyEvaluation ⟨st.expense, approvals1⟩ cfg.conditional)
          else
            some ⟨{ st.expense with
                      status := Status.rejected, comments := a1.comments },
              approvals1⟩
      | none =>
          some ⟨{ st.expense with
                    status := Status.rejected, comments := a1.comments },
            approvals1⟩

/-- `override_approval(expense_id)` of `src/final.py` (lines 435-457), past
the authorization checks: sets the status for `'approve'`/`'reject'`
(comments only on reject), deletes every record whose action is NULL, and
returns `none` (HTTP 400, nothing changed) for any other action string. -/
def override_approval (st : EngineState) (action : String)
    (comments : String) : Option EngineState :=
  if action = "approve" then
    some ⟨{ st.expense with status := Status.approved },
      st.approvals.filter (fun a => a.action.isSome)⟩
  else if action = "reject" then
    some ⟨{ st.expense with status := Status.rejected, comments := some comments },
      st.approvals.filter (fun a => a.action.isSome)⟩
  else none

/-! ### Concrete fixtures used by counterexamples and witnesses -/

/-- An employee with no manager, submitter of the fixture expenses. -/
def emp0 : User := ⟨2, 1, "employee", none⟩

/-- A pending expense submitted by `emp0`. -/
def exp0 : Expense := ⟨10, emp0, Status.pending, none⟩

/-- A sequential workflow config whose `steps` list is empty. -/
def cfgSeqEmpty : WorkflowConfig := ⟨some "sequential", [], none⟩

/-- A sequential workflow config whose only step is `manager_of_submitter`. -/
def cfgSeqMgr : WorkflowConfig := ⟨some "sequential", [Step.managerOfSubmitter], none⟩

/-- Another manager-less employee. -/
def empNoMgr : User := ⟨3, 1, "employee", none⟩

/-- A pending expense submitted by `empNoMgr`. -/
def exp1 : Expense := ⟨11, empNoMgr, Status.pending, none⟩

/-- A manager, id 7. -/
def mgr7 : User := ⟨7, 1, "manager", none⟩

/-- An admin, id 9. -/
def adm9 : User := ⟨9, 1, "admin", none⟩

/-- An employee whose manager is `mgr7`. -/
def empM : User := ⟨2, 1, "employee", some 7⟩

/-- A pending expense submitted by `empM`. -/
def expP : Expense := ⟨12, empM, Status.pending, none⟩

/-- The default two-step sequential chain of the source
(`manager_of_submitter`, then role `admin`). -/
def cfgSeq2 : WorkflowConfig :=
  ⟨some "sequential", [Step.managerOfSubmitter, Step.roleStep "admin"], none⟩

/-- A pending approval record at step 1 for `expP`, held by `mgr7`. -/
def recStep1 : Approval := ⟨12, 7, 1, none, none⟩

/-- A pending approval record at step 2 for `expP`, held by `adm9`. -/
def recStep2 : Approval := ⟨12, 9, 2, none, none⟩

/-- An already-approved expense (terminal) by `emp0`. -/
def expTerm : Expense := ⟨20, emp0, Status.approved, none⟩

/-- An approval record that is already decided (`action = approved`). -/
def decidedRec : Approval := ⟨20, 7, 1, some Action.approved, some "ok"⟩

/-! ### C1 -/

/-- C1 counterexample: submitting under a sequential config with an empty
`steps` list creates zero approval records but leaves the expense status
`pending` — it is not auto-approved as the claim states (the
`if steps:` guard of `create_initial_approvals` skips the auto-approve
branch entirely). -/
theorem seq_empty_steps_stays_pending :
    create_initial_approvals [] exp0 cfgSeqEmpty emp0 1 = ([], Status.pending) ∧
    (create_initial_approvals [] exp0 cfgSeqEmpty emp0 1).2 ≠ Status.approved := by
  constructor <;> decide

/-- C1 (amended): for a sequential workflow config and a pending expense,
submitting with a non-empty `steps` list whose first step's resolver
returns none yields status `approved` with zero approval records; with an
empty `steps` list, zero records are created but the status stays
`pending` (no auto-approval happens). -/
theorem seq_submit_auto_approval_amended (db : List User) (e : Expense)
    (cfg : WorkflowConfig) (emp : User) (cid : Nat)
    (hseq : cfg.type?.getD "sequential" = "sequential")
    (hpend : e.status = Status.pending) :
    (cfg.steps = [] →
      create_initial_approvals db e cfg emp cid = ([], Status.pending)) ∧
    (∀ s rest, cfg.steps = s :: rest →
      determine_approver db emp s cid = none →
      create_initial_approvals db e cfg emp cid = ([], Status.approved)) := by
  constructor
  · intro h
    simp [create_initial_approvals, hseq, h, hpend]
  · intro s rest hsteps hres
    simp [create_initial_approvals, hseq, hsteps, hres]

/-- Witness for C1 (amended): a manager-less submitter under the
one-step `manager_of_submitter` chain is auto-approved with no records. -/
theorem seq_submit_auto_approval_amended_witness :
    create_initial_approvals [] exp1 cfgSeqMgr empNoMgr 1 = ([], Status.approved) :=
  (seq_submit_auto_approval_amended [] exp1 cfgSeqMgr empNoMgr 1 rfl rfl).2
    Step.managerOfSubmitter [] rfl rfl

/-! ### C2 -/

/-- C2 (code-bug evidence): neither decision endpoint checks that the
record is still pending.  Rejecting an approval record whose action is
already `approved` (on an expense already terminally approved) succeeds:
the record's action is overwritten to `rejected` and the expense status is
flipped to `rejected` — the call does not fail and state is altered,
contradicting the claim and the spec's no-double-decision contract. -/
theorem double_decision_overwrites :
    reject_expense none ⟨expTerm, [decidedRec]⟩ 0 "veto" =
      some ⟨⟨20, emp0, Status.rejected, some "veto"⟩,
        [⟨20, 7, 1, some Action.rejected, some "veto"⟩]⟩ := by
  decide

/-! ### C3 -/

/-- C3: under a sequential config, approving a pending record `a` (at
index `i`) with `a.step < len(steps)`: if the resolver yields an approver
for `steps[a.step]` (0-indexed), exactly one new pending record at step
`a.step + 1` with that approver is appended and the expense (hence its
pending status) is unchanged; if the resolver yields none, no new record
is created and the expense is unchanged (the chain stalls). -/
theorem seq_approve_advances (db : List User) (cfg : WorkflowConfig)
    (st : EngineState) (i : Nat) (a : Approval) (c : String) (cid : Nat)
    (hseq : cfg.type?.getD "sequential" = "sequential")
    (ha : st.approvals[i]? = some a)
    (hpendR : a.action = none)
    (hpendE : st.expense.status = Status.pending)
    (hstep : a.step < cfg.steps.length) :
    (∀ nxt, determine_approver db st.expense.employee
        (cfg.steps.getD a.step Step.unknown) cid = some nxt →
      approve_expense db (some cfg) st i c cid =
        some ⟨st.expense,
          st.approvals.set i { a with action := some Action.approved, comments := some c }
            ++ [⟨st.expense.id, nxt.id, a.step + 1, none, none⟩]⟩) ∧
    (determine_approver db st.expense.employee
        (cfg.steps.getD a.step Step.unknown) cid = none →
      approve_expense db (some cfg) st i c cid =
        some ⟨st.expense,
          st.approvals.set i
            { a with action := some Action.approved, comments := some c }⟩) := by
  have hgd : cfg.steps.getD a.step Step.unknown = cfg.steps[a.step] := by
    simp [List.getD_eq_getElem?_getD, List.getElem?_eq_getElem hstep]
  rw [hgd]
  constructor
  · intro nxt hres
    simp [approve_expense, ha, hseq, hstep, hres]
  · intro hres
    simp [approve_expense, ha, hseq, hstep, hres]

/-- Witness for C3: under the default two-step chain, the manager's
step-1 approval appends exactly one pending record at step 2 held by the
resolved admin, and the expense stays pending. -/
theorem seq_approve_advances_witness :
    approve_expense [mgr7, adm9] (some cfgSeq2) ⟨expP, [recStep1]⟩ 0 "lgtm" 1 =
      some ⟨expP, [⟨12, 7, 1, some Action.approved, some "lgtm"⟩,
        ⟨12, 9, 2, none, none⟩]⟩ :=
  Eq.trans
    ((seq_approve_advances [mgr7, adm9] cfgSeq2 ⟨expP, [recStep1]⟩ 0 recStep1 "lgtm" 1
        rfl rfl rfl rfl (by decide)).1 adm9 (by decide))
    (by decide)

/-! ### C4 -/

/-- C4: under a sequential config, approving a pending record whose step
is `>= len(steps)` sets the expense status to `approved` and creates no
further records (the record list only has the acted-on record updated). -/
theorem seq_approve_final_step (db : List User) (cfg : WorkflowConfig)
    (st : EngineState) (i : Nat) (a : Approval) (c : String) (cid : Nat)
    (hseq : cfg.type?.getD "sequential" = "sequential")
    (ha : st.approvals[i]? = some a)
    (hpendR : a.action = none)
    (hstep : cfg.steps.length ≤ a.step) :
    approve_expense db (some cfg) st i c cid =
      some ⟨{ st.expense with status := Status.approved },
        st.approvals.set i
          { a with action := some Action.approved, comments := some c }⟩ := by
  have h : ¬ a.step < cfg.steps.length := not_lt.mpr hstep
  simp [approve_expense, ha, hseq, h]

/-- Witness for C4: approving the step-2 record of the two-step chain
finalizes the expense as approved with no new record. -/
theorem seq_approve_final_step_witness :
    approve_expense [mgr7, adm9] (some cfgSeq2) ⟨expP, [recStep2]⟩ 0 "done" 1 =
      some ⟨⟨12, empM, Status.approved, none⟩,
        [⟨12, 9, 2, some Action.approved, some "done"⟩]⟩ :=
  Eq.trans
    (seq_approve_final_step [mgr7, adm9] cfgSeq2 ⟨expP, [recStep2]⟩ 0 recStep2 "done" 1
      rfl rfl rfl (by decide))
    (by decide)

/-! ### C5 -/

/-- C5: with a sequential config (or no workflow row at all), rejecting a
pending record sets the expense status to `rejected` and copies the
decision comments onto the expense, with no condition on the record's step
number; every other record (in particular any other still-pending one) is
left exactly as it was. -/
theorem seq_reject_terminal (workflow : Option WorkflowConfig)
    (st : EngineState) (i : Nat) (a : Approval) (c : String)
    (hw : workflow = none ∨
      ∃ cfg, workflow = some cfg ∧ cfg.type? = some "sequential")
    (ha : st.approvals[i]? = some a)
    (hpendR : a.action = none) :
    reject_expense workflow st i c =
      some ⟨{ st.expense with status := Status.rejected, comments := some c },
        st.approvals.set i
          { a with action := some Action.rejected, comments := some c }⟩ ∧
    ∀ j, j ≠ i →
      (st.approvals.set i
        { a with action := some Action.rejected, comments := some c })[j]? =
        st.approvals[j]? := by
  refine ⟨?_, ?_⟩
  · rcases hw with h | ⟨cfg, hcfg, htype⟩
    · subst h
      simp [reject_expense, ha]
    · subst hcfg
      have hne : ¬ cfg.type? = some "parallel_conditional" := by
        simp [htype]
      simp [reject_expense, ha, hne]
  · intro j hj
    exact List.getElem?_set_ne (fun h => hj h.symm)

/-- Witness for C5: the manager rejecting the step-1 record of the
two-step chain terminally rejects the expense and copies the comments,
and a second still-pending record survives untouched. -/
theorem seq_reject_terminal_witness :
    reject_expense (some cfgSeq2) ⟨expP, [recStep1, recStep2]⟩ 0 "too costly" =
      some ⟨⟨12, empM, Status.rejected, some "too costly"⟩,
        [⟨12, 7, 1, some Action.rejected, some "too costly"⟩,
          ⟨12, 9, 2, none, none⟩]⟩ :=
  Eq.trans
    ((seq_reject_terminal (some cfgSeq2) ⟨expP, [recStep1, recStep2]⟩ 0 recStep1
        "too costly" (Or.inr ⟨cfgSeq2, rfl, rfl⟩) rfl rfl).1)
    (by decide)

/-! ### Helper lemmas for the conditional evaluator -/

/-- A non-nil approval list is not `isEmpty`. -/
lemma isEmpty_false_of_ne_nil {l : List Approval} (h : l ≠ []) :
    l.isEmpty = false := by
  cases l with
  | nil => exact absurd rfl h
  | cons a t => rfl

/-- The boolean `allRejected` holds exactly when every record with a
non-null action is rejected. -/
lemma allRejected_eq_true_iff (approvals : List Approval) :
    allRejected approvals = true ↔
      ∀ a ∈ approvals, a.action ≠ none → a.action = some Action.rejected := by
  unfold allRejected
  rw [List.all_eq_true]
  constructor
  · intro h a ha hno
    have hb := h a ha
    cases hact : a.action with
    | none => exact absurd hact hno
    | some act =>
        rw [hact] at hb
        simp at hb
        rw [hb]
  · intro h a ha
    cases hact : a.action with
    | none => simp
    | some act =>
        have h2 := h a ha (by simp [hact])
        rw [hact] at h2
        simp at h2
        simp [h2]

/-! ### C6 -/

/-- Fixture: a single approved record for the C6 counterexample. -/
def cRec6 : Approval := ⟨30, 4, 1, some Action.approved, none⟩

/-- Fixture: a zero threshold with an (empty) specific list. -/
def cCond6 : Conditional := ⟨some 0, some []⟩

/-- C6 counterexample: with threshold 0 the claim's approval condition
`approvedCount / totalRecords * 100 >= threshold` holds (100 ≥ 0) and
specific is not met, yet the evaluator does not approve: the Python
truthiness guard `cond.get('threshold') and ...` discards a zero
threshold. -/
theorem parallel_approved_iff_counterexample :
    ((approvedCount [cRec6] : ℚ) / (([cRec6] : List Approval).length : ℚ) * 100
        ≥ (0 : ℚ)) ∧
    specificMet [cRec6] cCond6 = false ∧
    evaluate_conditional [cRec6] (some cCond6) ≠ some Status.approved := by
  refine ⟨?_, ?_, ?_⟩
  · norm_num [approvedCount, cRec6]
  · decide
  · decide

/-- C6 (amended): for a non-empty record list and a conditional whose
threshold is present, the evaluator sets the status to approved exactly
when the threshold is nonzero (truthy) and
`approvedCount / totalRecords * 100 >= threshold`, or some approved
record's approver is in the specific list. -/
theorem parallel_approved_iff (approvals : List Approval) (cond : Conditional)
    (t : ℚ) (hne : approvals ≠ []) (ht : cond.threshold = some t) :
    evaluate_conditional approvals (some cond) = some Status.approved ↔
      ((t ≠ 0 ∧
          (approvedCount approvals : ℚ) / (approvals.length : ℚ) * 100 ≥ t) ∨
        specificMet approvals cond = true) := by
  have hne' := isEmpty_false_of_ne_nil hne
  have key : (thresholdMet approvals cond || specificMet approvals cond) = true ↔
      ((t ≠ 0 ∧
          (approvedCount approvals : ℚ) / (approvals.length : ℚ) * 100 ≥ t) ∨
        specificMet approvals cond = true) := by
    simp [thresholdMet, ht]
  rw [← key]
  simp only [evaluate_conditional, hne', Bool.false_eq_true, if_false]
  cases hor : (thresholdMet approvals cond || specificMet approvals cond) with
  | true => simp
  | false => cases hall : allRejected approvals <;> simp

/-- Witness for C6 (amended): one approved record out of one, threshold
60: the evaluator approves, matching the amended condition (100 ≥ 60). -/
theorem parallel_approved_iff_witness :
    evaluate_conditional [cRec6] (some ⟨some 60, none⟩) = some Status.approved :=
  (parallel_approved_iff [cRec6] ⟨some 60, none⟩ 60 (by decide) rfl).mpr
    (Or.inl ⟨by norm_num, by norm_num [approvedCount, cRec6]⟩)

/-! ### C7 -/

/-- C7: for a non-empty record list and a present conditional where
neither the threshold nor the specific rule is met, the evaluator sets the
status to rejected exactly when every record with a non-null action is
rejected (records with a null action are skipped, so the check can fire
while records are outstanding); otherwise it leaves the status
unchanged. -/
theorem parallel_all_rejected_iff (approvals : List Approval)
    (cond : Conditional) (hne : approvals ≠ [])
    (hT : thresholdMet approvals cond = false)
    (hS : specificMet approvals cond = false) :
    (evaluate_conditional approvals (some cond) = some Status.rejected ↔
      ∀ a ∈ approvals, a.action ≠ none → a.action = some Action.rejected) ∧
    (evaluate_conditional approvals (some cond) = none ↔
      ¬ ∀ a ∈ approvals, a.action ≠ none → a.action = some Action.rejected) := by
  have hne' := isEmpty_false_of_ne_nil hne
  rw [← allRejected_eq_true_iff]
  simp only [evaluate_conditional, hne', Bool.false_eq_true, if_false, hT, hS,
    Bool.or_self]
  cases hall : allRejected approvals <;> simp

/-- Witness for C7: one rejected record and one still-pending record,
threshold 60: every decided record is rejected, so the evaluator rejects
the expense while a record is still outstanding. -/
theorem parallel_all_rejected_iff_witness :
    evaluate_conditional
      [⟨30, 4, 1, some Action.rejected, none⟩, ⟨30, 5, 2, none, none⟩]
      (some ⟨some 60, none⟩) = some Status.rejected :=
  ((parallel_all_rejected_iff
      [⟨30, 4, 1, some Action.rejected, none⟩, ⟨30, 5, 2, none, none⟩]
      ⟨some 60, none⟩ (by decide)
      (by
        have h0 : approvedCount
            [⟨30, 4, 1, some Action.rejected, none⟩, ⟨30, 5, 2, none, none⟩] = 0 := by
          decide
        norm_num [thresholdMet, h0])
      (by decide)).1).mpr
    (by decide)

/-! ### C8 -/

/-- C8: an administrative override with action `approve` (resp. `reject`)
sets the expense status directly to approved (resp. rejected with the
given comments) and deletes every approval record whose action is still
null, so that no pending record remains. -/
theorem override_purges_pending (st : EngineState) (action : String)
    (comments : String) :
    (action = "approve" →
      override_approval st action comments =
        some ⟨{ st.expense with status := Status.approved },
          st.approvals.filter (fun a => a.action.isSome)⟩) ∧
    (action = "reject" →
      override_approval st action comments =
        some ⟨{ st.expense with
                  status := Status.rejected, comments := some comments },
          st.approvals.filter (fun a => a.action.isSome)⟩) ∧
    ∀ a ∈ st.approvals.filter (fun a => a.action.isSome), a.action ≠ none := by
  refine ⟨?_, ?_, ?_⟩
  · intro h
    simp [override_approval, h]
  · intro h
    simp [override_approval, h]
  · intro a ha
    have h2 := (List.mem_filter.mp ha).2
    simpa [Option.isSome_iff_ne_none] using h2

/-- Fixture: pending records and expense for the override witness. -/
def pendRecA : Approval := ⟨60, 7, 1, none, none⟩

/-- Fixture: second pending record for the override witness. -/
def pendRecB : Approval := ⟨60, 9, 2, none, none⟩

/-- Fixture: pending expense with two outstanding records. -/
def expO : Expense := ⟨60, emp0, Status.pending, none⟩

/-- Witness for C8: overriding with `reject` on an expense with two
pending records deletes both and sets the terminal status directly. -/
theorem override_purges_pending_witness :
    override_approval ⟨expO, [pendRecA, pendRecB]⟩ "reject" "denied" =
      some ⟨⟨60, emp0, Status.rejected, some "denied"⟩, []⟩ :=
  Eq.trans
    ((override_purges_pending ⟨expO, [pendRecA, pendRecB]⟩ "reject" "denied").2.1 rfl)
    (by decide)

/-! ### C9 -/

/-- Fixture: a single approved record for the C9 counterexample. -/
def cRec9 : Approval := ⟨40, 5, 1, some Action.approved, none⟩

/-- Fixture: a zero threshold with no specific list. -/
def cCond9 : Conditional := ⟨some 0, none⟩

/-- C9 counterexample: threshold 0 is a legal percentage and the ratio
condition `approvedCount / totalRecords * 100 >= 0` holds, yet evaluating
a fully-approved one-record expense does not set the status to approved:
`cond.get('threshold') and ...` treats a zero threshold as false. -/
theorem zero_threshold_counterexample :
    ((approvedCount [cRec9] : ℚ) / (([cRec9] : List Approval).length : ℚ) * 100
        ≥ (0 : ℚ)) ∧
    evaluate_conditional [cRec9] (some cCond9) ≠ some Status.approved := by
  refine ⟨?_, ?_⟩
  · norm_num [approvedCount, cRec9]
  · decide

/-- C9 (amended): with a zero threshold the threshold condition is never
met (the falsy-zero guard short-circuits it), so the evaluator approves
exactly when the specific rule is met. -/
theorem zero_threshold_never_met (approvals : List Approval)
    (cond : Conditional) (hne : approvals ≠ [])
    (h0 : cond.threshold = some 0) :
    thresholdMet approvals cond = false ∧
    (evaluate_conditional approvals (some cond) = some Status.approved ↔
      specificMet approvals cond = true) := by
  have hT : thresholdMet approvals cond = false := by simp [thresholdMet, h0]
  have hne' := isEmpty_false_of_ne_nil hne
  refine ⟨hT, ?_⟩
  simp only [evaluate_conditional, hne', Bool.false_eq_true, if_false, hT,
    Bool.false_or]
  cases hS : specificMet approvals cond with
  | true => simp
  | false => cases hall : allRejected approvals <;> simp

/-- Witness for C9 (amended): with threshold 0 and the approver on the
specific list, the expense is approved via the specific rule. -/
theorem zero_threshold_never_met_witness :
    evaluate_conditional [cRec9] (some ⟨some 0, some [5]⟩) = some Status.approved :=
  (zero_threshold_never_met [cRec9] ⟨some 0, some [5]⟩ (by decide) rfl).2.mpr
    (by decide)

/-! ### C10 -/

/-- C10: with at least one record, every action null, a present
conditional, and neither the threshold nor the specific rule met, the
all-rejected check is vacuously true and the evaluator sets the status to
rejected — an expense reaches `rejected` with zero decided records. -/
theorem vacuous_all_rejected (approvals : List Approval) (cond : Conditional)
    (hne : approvals ≠ [])
    (hnull : ∀ a ∈ approvals, a.action = none)
    (hT : thresholdMet approvals cond = false)
    (hS : specificMet approvals cond = false) :
    evaluate_conditional approvals (some cond) = some Status.rejected := by
  have hne' := isEmpty_false_of_ne_nil hne
  have hall : allRejected approvals = true := by
    rw [allRejected_eq_true_iff]
    intro a ha hno
    exact absurd (hnull a ha) hno
  simp [evaluate_conditional, hne', hT, hS, hall]

/-- Fixture: a single fully-pending record for the C10 witness. -/
def pendRec10 : Approval := ⟨50, 6, 1, none, none⟩

/-- Witness for C10: a single pending record under threshold 60 with an
unrelated specific list is rejected with zero decided records. -/
theorem vacuous_all_rejected_witness :
    evaluate_conditional [pendRec10] (some ⟨some 60, some [9]⟩) =
      some Status.rejected :=
  vacuous_all_rejected [pendRec10] ⟨some 60, some [9]⟩ (by decide) (by decide)
    (by
      have h0 : approvedCount [pendRec10] = 0 := by decide
      norm_num [thresholdMet, h0])
    (by decide)

end ExpenseFlow
